import Mathlib

/-!
Shallow embedding of the backcountry-map-tools repository
(src/lib/bbox.py, src/lib/dem_utils.py, src/lib/download_utils.py,
src/lib/gpkg_utils.py) together with proofs settling the frozen claims.

Python strings are modelled as Lean `String`; the handful of Python string
primitives used by the source (`str.strip`, `str.replace(' ', '_')`,
`str.split(',')[0]`, `str.endswith`, `str.upper`, `str.lower`,
`os.path.basename`, `os.path.splitext`, `os.path.dirname`, `os.path.join`,
decimal integer formatting `f"{n:02d}"`) are re-implemented structurally on
`List Char` so that the kernel can evaluate them on concrete inputs.

The filesystem is modelled as an explicit state (`FS`): a set of files,
each tagged with whether its content is the complete intended content, and
a set of directories.  External collaborators (`requests.get`,
`zipfile.ZipFile`, `gdalbuildvrt`, `gdalwarp`, the OGR layer) are modelled
as oracle parameters describing the outcome of one interaction, and the
Python functions become state-passing Lean functions.
-/

namespace MapTools

/-! ### Python string primitives on `List Char` -/

/-- Decimal digit characters `'0'`..`'9'` (as used by Python `%d` formatting). -/
def isDigitChar (c : Char) : Bool := '0' ≤ c && c ≤ '9'

/-- Auxiliary fuel-based decimal printer: for `n < fuel`, produces the decimal
digits of `n`, most significant first (what Python `str(n)` / `f"{n:d}"` emits). -/
def decReprAux : Nat → Nat → List Char
  | 0, _ => []
  | fuel + 1, n =>
    if n < 10 then [Nat.digitChar n]
    else decReprAux fuel (n / 10) ++ [Nat.digitChar (n % 10)]

/-- Decimal representation of a natural number, most significant digit first. -/
def decRepr (n : Nat) : List Char := decReprAux (n + 1) n

/-- Zero-pad a digit list on the left to width `w`: Python's `f"{n:0wd}"`. -/
def padLeft (w : Nat) (l : List Char) : List Char :=
  List.replicate (w - l.length) '0' ++ l

/-- Python `f"{n:02d}"` / `f"{n:03d}"`: decimal digits of `n`, zero-padded
on the left to width `w` (longer numbers are kept whole). -/
def pyFormat (w : Nat) (n : Nat) : List Char := padLeft w (decRepr n)

/-- Python `str.strip()` specialised to the whitespace the source data uses. -/
def pyStrip (s : String) : String :=
  String.mk (((s.data.dropWhile Char.isWhitespace).reverse.dropWhile
    Char.isWhitespace).reverse)

/-- Python `str.replace(' ', '_')`: replace every space character. -/
def pyReplaceSpaceUnderscore (s : String) : String :=
  String.mk (s.data.map (fun c => if c = ' ' then '_' else c))

/-- Python `str.split(',')[0]`: the prefix of the string before the first
comma (the whole string when no comma occurs). -/
def pyFirstCommaToken (s : String) : String :=
  String.mk (s.data.takeWhile (fun c => c ≠ ','))

/-- Python `str.endswith(suffix)`. -/
def pyEndsWith (s suffix : String) : Bool :=
  List.isSuffixOf suffix.data s.data

/-- Python `str.upper()` for the ASCII strings the source manipulates. -/
def pyUpper (s : String) : String := String.mk (s.data.map Char.toUpper)

/-- Python `str.lower()` for the ASCII strings the source manipulates. -/
def pyLower (s : String) : String := String.mk (s.data.map Char.toLower)

/-- Python `os.path.join(d, n)` for the relative paths the source builds. -/
def pathJoin (d n : String) : String := String.mk (d.data ++ '/' :: n.data)

/-- Python `os.path.basename`: everything after the last `'/'`. -/
def pathBasename (p : String) : String :=
  String.mk ((p.data.reverse.takeWhile (fun c => c ≠ '/')).reverse)

/-- Python `os.path.dirname`: everything before the last `'/'` (empty when
the path has no directory component). -/
def pathDirname (p : String) : String :=
  String.mk (((p.data.reverse.dropWhile (fun c => c ≠ '/')).drop 1).reverse)

/-- Python `os.path.splitext(p)[0]`: drop the last dot-extension, for names
that have one (the only shape the source feeds it, e.g. `VECTOR_....zip`). -/
def pathStripExt (p : String) : String :=
  if p.data.contains '.' then
    String.mk (((p.data.reverse.dropWhile (fun c => c ≠ '.')).drop 1).reverse)
  else p

/-! ### BoundingBox (src/lib/bbox.py)

Python floats are modelled as rationals; the source only floors them and
prints them. -/

/-- `BoundingBox(xmin, ymin, xmax, ymax)` from src/lib/bbox.py. -/
structure BoundingBox where
  xmin : ℚ
  ymin : ℚ
  xmax : ℚ
  ymax : ℚ
deriving DecidableEq

/-! ### Tile naming and enumeration (src/lib/dem_utils.py) -/

/-- `USGS_BASE` constant from src/lib/dem_utils.py. -/
def USGS_BASE : String :=
  "https://prd-tnm.s3.amazonaws.com/StagedProducts/Elevation/1/TIFF/current"

/-- `tile_name(lat, lon)` from src/lib/dem_utils.py:
`f"{lat_prefix}{abs(lat):02d}{lon_prefix}{abs(lon):03d}"` with
`lat_prefix = 'n' if lat >= 0 else 's'`, `lon_prefix = 'e' if lon >= 0 else 'w'`. -/
def tile_name (lat lon : Int) : String :=
  String.mk ((if 0 ≤ lat then 'n' else 's') :: pyFormat 2 lat.natAbs
    ++ (if 0 ≤ lon then 'e' else 'w') :: pyFormat 3 lon.natAbs)

/-- `tile_url(tile_key)` from src/lib/dem_utils.py. -/
def tile_url (tile_key : String) : String :=
  USGS_BASE ++ "/" ++ tile_key ++ "/USGS_1_" ++ tile_key ++ ".tif"

/-- Python `range(a, b + 1)` over integers, as a list. -/
def intRange (a b : Int) : List Int :=
  (List.range (b + 1 - a).toNat).map (fun i : Nat => a + (i : Int))

/-- `tiles_for_bbox(bbox)` from src/lib/dem_utils.py: floor the four
coordinates and enumerate `tile_name lat lon` for `lat` in
`range(lat_start, lat_end + 1)` (outer) and `lon` in
`range(lon_start, lon_end + 1)` (inner). -/
def tiles_for_bbox (bbox : BoundingBox) : List String :=
  (intRange ⌊bbox.ymin⌋ ⌊bbox.ymax⌋).flatMap (fun lat =>
    (intRange ⌊bbox.xmin⌋ ⌊bbox.xmax⌋).map (fun lon => tile_name lat lon))

/-! ### Facts about the decimal printer and `tile_name` injectivity -/

/-- Numeric value of a decimal digit character. -/
def digitVal (c : Char) : Nat := c.toNat - 48

lemma digitVal_digitChar {d : Nat} (h : d < 10) : digitVal (Nat.digitChar d) = d := by
  interval_cases d <;> decide

lemma isDigitChar_digitChar {d : Nat} (h : d < 10) :
    isDigitChar (Nat.digitChar d) = true := by
  interval_cases d <;> decide

lemma digitChar_ne_zero {d : Nat} (h : d < 10) (h0 : d ≠ 0) :
    Nat.digitChar d ≠ '0' := by
  interval_cases d
  · exact absurd rfl h0
  all_goals decide

lemma decReprAux_ne_nil {fuel n : Nat} (h : n < fuel) : decReprAux fuel n ≠ [] := by
  cases fuel with
  | zero => omega
  | succ f =>
    rw [decReprAux]
    split
    · simp
    · simp

lemma decReprAux_digits {fuel n : Nat} (h : n < fuel) :
    ∀ c ∈ decReprAux fuel n, isDigitChar c = true := by
  induction fuel generalizing n with
  | zero => omega
  | succ f ih =>
    rw [decReprAux]
    split
    case isTrue hlt =>
      intro c hc
      simp only [List.mem_singleton] at hc
      subst hc
      exact isDigitChar_digitChar hlt
    case isFalse hge =>
      intro c hc
      rcases List.mem_append.mp hc with hc | hc
      · exact ih (by omega : n / 10 < f) c hc
      · simp only [List.mem_singleton] at hc
        subst hc
        exact isDigitChar_digitChar (Nat.mod_lt _ (by omega))

lemma decReprAux_head_ne_zero {fuel n : Nat} (h : n < fuel) (h0 : n ≠ 0) :
    ∀ c, (decReprAux fuel n).head? = some c → c ≠ '0' := by
  induction fuel generalizing n with
  | zero => omega
  | succ f ih =>
    rw [decReprAux]
    split
    case isTrue hlt =>
      intro c hc
      simp only [List.head?_cons, Option.some.injEq] at hc
      subst hc
      exact digitChar_ne_zero hlt h0
    case isFalse hge =>
      intro c hc
      rw [List.head?_append_of_ne_nil _ (decReprAux_ne_nil (by omega : n / 10 < f))] at hc
      exact ih (by omega) (by omega) c hc

lemma decReprAux_foldl {fuel n : Nat} (h : n < fuel) (a : Nat) :
    List.foldl (fun acc c => 10 * acc + digitVal c) a (decReprAux fuel n)
      = a * 10 ^ (decReprAux fuel n).length + n := by
  induction fuel generalizing n a with
  | zero => omega
  | succ f ih =>
    rw [decReprAux]
    split
    case isTrue hlt =>
      simp [digitVal_digitChar hlt]
      ring
    case isFalse hge =>
      have hrec : n / 10 < f := by omega
      rw [List.foldl_append, ih hrec a, List.length_append]
      simp only [List.foldl_cons, List.foldl_nil, List.length_singleton]
      rw [digitVal_digitChar (Nat.mod_lt _ (by omega))]
      have := Nat.div_add_mod n 10
      rw [pow_succ]
      ring_nf
      omega

lemma decRepr_injective {n m : Nat} (h : decRepr n = decRepr m) : n = m := by
  have hn := decReprAux_foldl (Nat.lt_succ_self n) 0
  have hm := decReprAux_foldl (Nat.lt_succ_self m) 0
  unfold decRepr at h
  rw [h] at hn
  rw [hn] at hm
  omega

lemma decRepr_ne_nil (n : Nat) : decRepr n ≠ [] :=
  decReprAux_ne_nil (Nat.lt_succ_self n)

lemma decRepr_digits (n : Nat) : ∀ c ∈ decRepr n, isDigitChar c = true :=
  decReprAux_digits (Nat.lt_succ_self n)

lemma decRepr_head_ne_zero {n : Nat} (h0 : n ≠ 0) :
    ∀ c, (decRepr n).head? = some c → c ≠ '0' :=
  decReprAux_head_ne_zero (Nat.lt_succ_self n) h0

lemma replicate_zero_append_cancel :
    ∀ (k1 k2 : Nat) (a b : List Char), a.head? ≠ some '0' → b.head? ≠ some '0' →
      List.replicate k1 '0' ++ a = List.replicate k2 '0' ++ b → a = b := by
  intro k1
  induction k1 with
  | zero =>
    intro k2 a b ha hb h
    cases k2 with
    | zero => simpa using h
    | succ j =>
      exfalso
      apply ha
      simp only [List.replicate_zero, List.nil_append] at h
      rw [h]
      simp [List.replicate_succ]
  | succ i ih =>
    intro k2 a b ha hb h
    cases k2 with
    | zero =>
      exfalso
      apply hb
      simp only [List.replicate_zero, List.nil_append] at h
      rw [← h]
      simp [List.replicate_succ]
    | succ j =>
      simp only [List.replicate_succ, List.cons_append, List.cons.injEq] at h
      exact ih j a b ha hb h.2

lemma pyFormat_digits (w n : Nat) : ∀ c ∈ pyFormat w n, isDigitChar c = true := by
  intro c hc
  unfold pyFormat padLeft at hc
  rcases List.mem_append.mp hc with hc | hc
  · rw [List.eq_of_mem_replicate hc]
    decide
  · exact decRepr_digits n c hc

lemma pyFormat_zero_all_zero (w : Nat) : ∀ c ∈ pyFormat w 0, c = '0' := by
  intro c hc
  unfold pyFormat padLeft at hc
  rcases List.mem_append.mp hc with hc | hc
  · exact List.eq_of_mem_replicate hc
  · have : decRepr 0 = ['0'] := by decide
    rw [this] at hc
    simpa using hc

lemma pyFormat_head_mem {w n : Nat} (hn : n ≠ 0) :
    ∃ c, c ∈ pyFormat w n ∧ c ≠ '0' := by
  have hne := decRepr_ne_nil n
  refine ⟨(decRepr n).head hne, ?_, ?_⟩
  · unfold pyFormat padLeft
    exact List.mem_append_right _ (List.head_mem hne)
  · exact decRepr_head_ne_zero hn _ (List.head?_eq_head hne)

lemma pyFormat_injective {w n m : Nat} (h : pyFormat w n = pyFormat w m) : n = m := by
  by_cases hn : n = 0 <;> by_cases hm : m = 0
  · omega
  · exfalso
    obtain ⟨c, hmem, hc0⟩ := pyFormat_head_mem (w := w) hm
    rw [← h] at hmem
    subst hn
    exact hc0 (pyFormat_zero_all_zero w c hmem)
  · exfalso
    obtain ⟨c, hmem, hc0⟩ := pyFormat_head_mem (w := w) hn
    rw [h] at hmem
    subst hm
    exact hc0 (pyFormat_zero_all_zero w c hmem)
  · have : decRepr n = decRepr m := by
      apply replicate_zero_append_cancel (w - (decRepr n).length) (w - (decRepr m).length)
      · intro hcontra
        rcases hh : (decRepr n).head? with _ | c
        · rw [hh] at hcontra; exact Option.noConfusion hcontra
        · rw [hh] at hcontra
          exact decRepr_head_ne_zero hn c hh (Option.some.inj hcontra)
      · intro hcontra
        rcases hh : (decRepr m).head? with _ | c
        · rw [hh] at hcontra; exact Option.noConfusion hcontra
        · rw [hh] at hcontra
          exact decRepr_head_ne_zero hm c hh (Option.some.inj hcontra)
      · exact h
    exact decRepr_injective this

/-- Splitting a character list at its first non-digit character is unambiguous. -/
lemma append_nondigit_inj :
    ∀ (l1 l2 : List Char) (c1 c2 : Char) (r1 r2 : List Char),
      (∀ x ∈ l1, isDigitChar x = true) → (∀ x ∈ l2, isDigitChar x = true) →
      isDigitChar c1 = false → isDigitChar c2 = false →
      l1 ++ c1 :: r1 = l2 ++ c2 :: r2 → l1 = l2 ∧ c1 = c2 ∧ r1 = r2 := by
  intro l1
  induction l1 with
  | nil =>
    intro l2 c1 c2 r1 r2 _ h2 hc1 hc2 h
    cases l2 with
    | nil =>
      simp only [List.nil_append, List.cons.injEq] at h
      exact ⟨rfl, h.1, h.2⟩
    | cons d t =>
      exfalso
      simp only [List.nil_append, List.cons_append, List.cons.injEq] at h
      have : isDigitChar c1 = true := h.1 ▸ h2 d (List.mem_cons_self d t)
      rw [hc1] at this
      exact Bool.noConfusion this
  | cons d t ih =>
    intro l2 c1 c2 r1 r2 h1 h2 hc1 hc2 h
    cases l2 with
    | nil =>
      exfalso
      simp only [List.nil_append, List.cons_append, List.cons.injEq] at h
      have : isDigitChar c2 = true := h.1 ▸ h1 d (List.mem_cons_self d t)
      rw [hc2] at this
      exact Bool.noConfusion this
    | cons d' t' =>
      simp only [List.cons_append, List.cons.injEq] at h
      obtain ⟨hd, htl⟩ := h
      obtain ⟨hl, hc, hr⟩ := ih t' c1 c2 r1 r2
        (fun x hx => h1 x (List.mem_cons_of_mem d hx))
        (fun x hx => h2 x (List.mem_cons_of_mem d' hx)) hc1 hc2 htl
      exact ⟨by rw [hd, hl], hc, hr⟩

/-- `tile_name` assigns a distinct key to every integer (lat, lon) cell. -/
lemma tile_name_inj {lat lon lat' lon' : Int}
    (h : tile_name lat lon = tile_name lat' lon') : lat = lat' ∧ lon = lon' := by
  unfold tile_name at h
  have hdata : ((if 0 ≤ lat then 'n' else 's') :: pyFormat 2 lat.natAbs
      ++ (if 0 ≤ lon then 'e' else 'w') :: pyFormat 3 lon.natAbs)
      = ((if 0 ≤ lat' then 'n' else 's') :: pyFormat 2 lat'.natAbs
      ++ (if 0 ≤ lon' then 'e' else 'w') :: pyFormat 3 lon'.natAbs) :=
    congrArg String.data h
  rw [List.cons_append, List.cons_append, List.cons.injEq] at hdata
  obtain ⟨hsign, htail⟩ := hdata
  have hlatsign : (0 ≤ lat) ↔ (0 ≤ lat') := by
    by_cases h1 : 0 ≤ lat <;> by_cases h2 : 0 ≤ lat' <;>
      simp [h1, h2] at hsign ⊢
  have hewdigit : ∀ b : Bool, isDigitChar (if b = true then 'e' else 'w') = false := by
    decide
  obtain ⟨hlatabs, hlonpre, hlonabs⟩ :=
    append_nondigit_inj _ _ _ _ _ _
      (pyFormat_digits 2 lat.natAbs) (pyFormat_digits 2 lat'.natAbs)
      (by rcases Classical.em (0 ≤ lon) with h1 | h1 <;> simp [h1] <;> decide)
      (by rcases Classical.em (0 ≤ lon') with h1 | h1 <;> simp [h1] <;> decide)
      htail
  have hlonsign : (0 ≤ lon) ↔ (0 ≤ lon') := by
    by_cases h1 : 0 ≤ lon <;> by_cases h2 : 0 ≤ lon' <;>
      simp [h1, h2] at hlonpre ⊢
  have habslat : lat.natAbs = lat'.natAbs := pyFormat_injective hlatabs
  have habslon : lon.natAbs = lon'.natAbs := pyFormat_injective hlonabs
  omega

/-- Row-major flattening of a rectangular grid of ranges. -/
lemma flatMap_range_map {α : Type} (k : Nat) (f : Nat → Nat → α) :
    ∀ m, (List.range m).flatMap (fun i => (List.range k).map (f i))
      = (List.range (m * k)).map (fun j => f (j / k) (j % k)) := by
  intro m
  induction m with
  | zero => simp
  | succ m ih =>
    rcases Nat.eq_zero_or_pos k with hk | hk
    · subst hk
      simp
    · rw [List.range_succ, List.flatMap_append, ih, List.flatMap_singleton,
        Nat.succ_mul, List.range_add, List.map_append, List.map_map]
      congr 1
      apply List.map_congr_left
      intro a ha
      rw [List.mem_range] at ha
      have hdiv : (m * k + a) / k = m := by
        rw [Nat.mul_comm m k, Nat.mul_add_div hk, Nat.div_eq_of_lt ha, Nat.add_zero]
      have hmod : (m * k + a) % k = a := by
        rw [Nat.mul_comm m k, Nat.mul_add_mod, Nat.mod_eq_of_lt ha]
      show f m a = f ((m * k + a) / k) ((m * k + a) % k)
      rw [hdiv, hmod]

/-- `tiles_for_bbox` in row-major normal form: one flat list indexed by
`j < latCount * lonCount`, with `lat = latStart + j / lonCount` (outer) and
`lon = lonStart + j % lonCount` (inner). -/
lemma tiles_for_bbox_eq (bbox : BoundingBox) :
    tiles_for_bbox bbox =
      (List.range ((⌊bbox.ymax⌋ + 1 - ⌊bbox.ymin⌋).toNat
          * (⌊bbox.xmax⌋ + 1 - ⌊bbox.xmin⌋).toNat)).map
        (fun j => tile_name
          (⌊bbox.ymin⌋ + ((j / (⌊bbox.xmax⌋ + 1 - ⌊bbox.xmin⌋).toNat : Nat) : Int))
          (⌊bbox.xmin⌋ + ((j % (⌊bbox.xmax⌋ + 1 - ⌊bbox.xmin⌋).toNat : Nat) : Int))) := by
  unfold tiles_for_bbox intRange
  refine Eq.trans (List.flatMap_map _ _ _) (Eq.trans
    (congrArg (List.flatMap (List.range (⌊bbox.ymax⌋ + 1 - ⌊bbox.ymin⌋).toNat))
      (funext fun a => Eq.trans (List.map_map _ _ _) rfl)) ?_)
  exact flatMap_range_map ((⌊bbox.xmax⌋ + 1 - ⌊bbox.xmin⌋).toNat)
    (fun i n => tile_name (⌊bbox.ymin⌋ + (i : Int)) (⌊bbox.xmin⌋ + (n : Int)))
    ((⌊bbox.ymax⌋ + 1 - ⌊bbox.ymin⌋).toNat)

/-- C6: for every bounding box with `xmin ≤ xmax` and `ymin ≤ ymax`,
`tiles_for_bbox` returns exactly
`(floor xmax - floor xmin + 1) * (floor ymax - floor ymin + 1)` tile keys
with no duplicates, each the `tile_name` of an integer `(lat, lon)` cell with
`lat ∈ [floor ymin, floor ymax]` and `lon ∈ [floor xmin, floor xmax]`,
enumerated in row-major order (latitude outer, longitude inner). -/
theorem tiles_for_bbox_grid (bbox : BoundingBox)
    (hx : bbox.xmin ≤ bbox.xmax) (hy : bbox.ymin ≤ bbox.ymax) :
    ((tiles_for_bbox bbox).length : Int)
        = (⌊bbox.xmax⌋ - ⌊bbox.xmin⌋ + 1) * (⌊bbox.ymax⌋ - ⌊bbox.ymin⌋ + 1)
    ∧ (tiles_for_bbox bbox).Nodup
    ∧ (∀ s, s ∈ tiles_for_bbox bbox ↔
        ∃ lat lon : Int, ⌊bbox.ymin⌋ ≤ lat ∧ lat ≤ ⌊bbox.ymax⌋ ∧
          ⌊bbox.xmin⌋ ≤ lon ∧ lon ≤ ⌊bbox.xmax⌋ ∧ s = tile_name lat lon)
    ∧ (∀ i : Nat, ∀ h : i < (tiles_for_bbox bbox).length,
        (tiles_for_bbox bbox).get ⟨i, h⟩
          = tile_name
              (⌊bbox.ymin⌋ + ((i / (⌊bbox.xmax⌋ + 1 - ⌊bbox.xmin⌋).toNat : Nat) : Int))
              (⌊bbox.xmin⌋ + ((i % (⌊bbox.xmax⌋ + 1 - ⌊bbox.xmin⌋).toNat : Nat) : Int))) := by
  have hfx : ⌊bbox.xmin⌋ ≤ ⌊bbox.xmax⌋ := Int.floor_le_floor hx
  have hfy : ⌊bbox.ymin⌋ ≤ ⌊bbox.ymax⌋ := Int.floor_le_floor hy
  have hlonpos : 0 < (⌊bbox.xmax⌋ + 1 - ⌊bbox.xmin⌋).toNat := by omega
  have htiles := tiles_for_bbox_eq bbox
  refine ⟨?_, ?_, ?_, ?_⟩
  · rw [htiles, List.length_map, List.length_range]
    push_cast
    have h1 : (((⌊bbox.ymax⌋ + 1 - ⌊bbox.ymin⌋).toNat : ℕ) : ℤ)
        = ⌊bbox.ymax⌋ + 1 - ⌊bbox.ymin⌋ := by omega
    have h2 : (((⌊bbox.xmax⌋ + 1 - ⌊bbox.xmin⌋).toNat : ℕ) : ℤ)
        = ⌊bbox.xmax⌋ + 1 - ⌊bbox.xmin⌋ := by omega
    rw [h1, h2]
    ring
  · rw [htiles]
    refine List.Nodup.map ?_ (List.nodup_range _)
    intro j j' heq
    obtain ⟨h1, h2⟩ := tile_name_inj heq
    have e1 : j / (⌊bbox.xmax⌋ + 1 - ⌊bbox.xmin⌋).toNat
        = j' / (⌊bbox.xmax⌋ + 1 - ⌊bbox.xmin⌋).toNat := by
      have := add_left_cancel h1
      exact_mod_cast this
    have e2 : j % (⌊bbox.xmax⌋ + 1 - ⌊bbox.xmin⌋).toNat
        = j' % (⌊bbox.xmax⌋ + 1 - ⌊bbox.xmin⌋).toNat := by
      have := add_left_cancel h2
      exact_mod_cast this
    calc j = (⌊bbox.xmax⌋ + 1 - ⌊bbox.xmin⌋).toNat
              * (j / (⌊bbox.xmax⌋ + 1 - ⌊bbox.xmin⌋).toNat)
            + j % (⌊bbox.xmax⌋ + 1 - ⌊bbox.xmin⌋).toNat :=
          (Nat.div_add_mod j _).symm
      _ = (⌊bbox.xmax⌋ + 1 - ⌊bbox.xmin⌋).toNat
              * (j' / (⌊bbox.xmax⌋ + 1 - ⌊bbox.xmin⌋).toNat)
            + j' % (⌊bbox.xmax⌋ + 1 - ⌊bbox.xmin⌋).toNat := by rw [e1, e2]
      _ = j' := Nat.div_add_mod j' _
  · intro s
    rw [htiles]
    constructor
    · intro hs
      rw [List.mem_map] at hs
      obtain ⟨j, hj, rfl⟩ := hs
      rw [List.mem_range] at hj
      have hdivlt : j / (⌊bbox.xmax⌋ + 1 - ⌊bbox.xmin⌋).toNat
          < (⌊bbox.ymax⌋ + 1 - ⌊bbox.ymin⌋).toNat :=
        (Nat.div_lt_iff_lt_mul hlonpos).mpr hj
      have hmodlt : j % (⌊bbox.xmax⌋ + 1 - ⌊bbox.xmin⌋).toNat
          < (⌊bbox.xmax⌋ + 1 - ⌊bbox.xmin⌋).toNat := Nat.mod_lt _ hlonpos
      generalize hd : j / (⌊bbox.xmax⌋ + 1 - ⌊bbox.xmin⌋).toNat = d at hdivlt ⊢
      generalize hm : j % (⌊bbox.xmax⌋ + 1 - ⌊bbox.xmin⌋).toNat = r at hmodlt ⊢
      refine ⟨⌊bbox.ymin⌋ + (d : Int), ⌊bbox.xmin⌋ + (r : Int),
        ?_, ?_, ?_, ?_, rfl⟩ <;> omega
    · rintro ⟨lat, lon, h1, h2, h3, h4, rfl⟩
      rw [List.mem_map]
      have ha : (lat - ⌊bbox.ymin⌋).toNat < (⌊bbox.ymax⌋ + 1 - ⌊bbox.ymin⌋).toNat := by
        omega
      have hb : (lon - ⌊bbox.xmin⌋).toNat < (⌊bbox.xmax⌋ + 1 - ⌊bbox.xmin⌋).toNat := by
        omega
      refine ⟨(lat - ⌊bbox.ymin⌋).toNat * (⌊bbox.xmax⌋ + 1 - ⌊bbox.xmin⌋).toNat
        + (lon - ⌊bbox.xmin⌋).toNat, ?_, ?_⟩
      · rw [List.mem_range]
        calc (lat - ⌊bbox.ymin⌋).toNat * (⌊bbox.xmax⌋ + 1 - ⌊bbox.xmin⌋).toNat
              + (lon - ⌊bbox.xmin⌋).toNat
            < (lat - ⌊bbox.ymin⌋).toNat * (⌊bbox.xmax⌋ + 1 - ⌊bbox.xmin⌋).toNat
              + (⌊bbox.xmax⌋ + 1 - ⌊bbox.xmin⌋).toNat := by omega
          _ = ((lat - ⌊bbox.ymin⌋).toNat + 1) * (⌊bbox.xmax⌋ + 1 - ⌊bbox.xmin⌋).toNat := by
              ring
          _ ≤ (⌊bbox.ymax⌋ + 1 - ⌊bbox.ymin⌋).toNat
              * (⌊bbox.xmax⌋ + 1 - ⌊bbox.xmin⌋).toNat :=
            Nat.mul_le_mul_right _ (by omega)
      · have hdiv : ((lat - ⌊bbox.ymin⌋).toNat * (⌊bbox.xmax⌋ + 1 - ⌊bbox.xmin⌋).toNat
            + (lon - ⌊bbox.xmin⌋).toNat) / (⌊bbox.xmax⌋ + 1 - ⌊bbox.xmin⌋).toNat
            = (lat - ⌊bbox.ymin⌋).toNat := by
          rw [Nat.mul_comm, Nat.mul_add_div hlonpos, Nat.div_eq_of_lt hb, Nat.add_zero]
        have hmod : ((lat - ⌊bbox.ymin⌋).toNat * (⌊bbox.xmax⌋ + 1 - ⌊bbox.xmin⌋).toNat
            + (lon - ⌊bbox.xmin⌋).toNat) % (⌊bbox.xmax⌋ + 1 - ⌊bbox.xmin⌋).toNat
            = (lon - ⌊bbox.xmin⌋).toNat := by
          rw [Nat.mul_comm, Nat.mul_add_mod, Nat.mod_eq_of_lt hb]
        rw [hdiv, hmod,
          show ⌊bbox.ymin⌋ + (((lat - ⌊bbox.ymin⌋).toNat : Nat) : Int) = lat by omega,
          show ⌊bbox.xmin⌋ + (((lon - ⌊bbox.xmin⌋).toNat : Nat) : Int) = lon by omega]
  · intro i h
    rw [List.get_eq_getElem]
    simp only [htiles, List.getElem_map, List.getElem_range]

/-- Witness for C6: the theorem applied to the concrete box
`(-103, 42, -102, 43)`, which yields the 2×2 grid of tiles. -/
theorem tiles_for_bbox_grid_witness :
    ((-103 : ℚ) ≤ (-102 : ℚ)) ∧ ((42 : ℚ) ≤ (43 : ℚ))
    ∧ (tiles_for_bbox ⟨-103, 42, -102, 43⟩).Nodup
    ∧ tiles_for_bbox ⟨-103, 42, -102, 43⟩
        = ["n42w103", "n42w102", "n43w103", "n43w102"] :=
  ⟨by decide, by decide,
    (tiles_for_bbox_grid ⟨-103, 42, -102, 43⟩ (by decide) (by decide)).2.1,
    by decide⟩

/-! ### Filesystem model

`files` holds `(path, complete)` pairs: `complete = true` means the file
content is the complete intended content, `false` a partially written file
(observationally both exist for `os.path.exists`).  `dirs` holds the
directories created with `os.makedirs`. -/

structure FS where
  files : List (String × Bool)
  dirs : List String
deriving DecidableEq

/-- `os.path.exists` on a file path. -/
def FS.fileExists (fs : FS) (p : String) : Bool :=
  (fs.files.map Prod.fst).contains p

/-- `os.makedirs(d, exist_ok=True)`. -/
def FS.makedirs (fs : FS) (d : String) : FS :=
  { fs with dirs := if fs.dirs.contains d then fs.dirs else d :: fs.dirs }

/-- Writing a file at `p` (replacing any previous file at `p`);
`complete` records whether the written content is the full intended content. -/
def FS.writeFile (fs : FS) (p : String) (complete : Bool) : FS :=
  { fs with files := (p, complete) :: fs.files.filter (fun q => q.1 != p) }

/-- `os.remove(p)`. -/
def FS.removeFile (fs : FS) (p : String) : FS :=
  { fs with files := fs.files.filter (fun q => q.1 != p) }

lemma FS.fileExists_makedirs (fs : FS) (d p : String) :
    (fs.makedirs d).fileExists p = fs.fileExists p := rfl

lemma FS.fileExists_writeFile_self (fs : FS) (p : String) (c : Bool) :
    (fs.writeFile p c).fileExists p = true := by
  simp [FS.fileExists, FS.writeFile]

lemma FS.fileExists_removeFile_self (fs : FS) (p : String) :
    (fs.removeFile p).fileExists p = false := by
  simp only [FS.fileExists, FS.removeFile]
  rw [Bool.eq_false_iff]
  intro hc
  rw [List.contains_iff_exists_mem_beq] at hc
  obtain ⟨x, hx, hbeq⟩ := hc
  rw [List.mem_map] at hx
  obtain ⟨q, hq, rfl⟩ := hx
  rw [List.mem_filter] at hq
  have h2 : q.1 ≠ p := by simpa using hq.2
  exact h2 (eq_of_beq hbeq).symm

lemma FS.dirs_contains_makedirs_self (fs : FS) (d : String) :
    (fs.makedirs d).dirs.contains d = true := by
  unfold FS.makedirs
  rcases h : fs.dirs.contains d with _ | _ <;> simp_all

lemma FS.makedirs_makedirs_self (fs : FS) (d : String) :
    (fs.makedirs d).makedirs d = fs.makedirs d := by
  unfold FS.makedirs
  rcases h : fs.dirs.contains d with _ | _ <;> simp_all

/-! ### download_file (src/lib/download_utils.py, lines 7-47)

One call models one `requests.get` interaction; the possible behaviours of
the response are an oracle parameter. -/

/-- Outcome of the single HTTP interaction performed by `download_file`. -/
inductive FetchOutcome where
  /-- `raise_for_status` raised an `HTTPError` (4xx/5xx). -/
  | httpError (msg : String)
  /-- a `RequestException` raised before any chunk was written. -/
  | earlyTransportError (msg : String)
  /-- response with `content-length: 0`. -/
  | emptyContent
  /-- a `RequestException` raised during `iter_content`, after part of the
  body was already written to the open file. -/
  | midTransferError (msg : String)
  /-- the whole body was streamed to the file. -/
  | success
deriving DecidableEq

/-- `download_file(url, local_filepath)` from src/lib/download_utils.py:
creates the parent directory, then either returns `(False, msg)` for the
handled error classes or writes the file and returns `(True, None)`.
A `RequestException` in mid-transfer is caught *after* the partial content
was written, so the partial file stays at `local_filepath`. -/
def download_file (fs : FS) (outcome : FetchOutcome) (url local_filepath : String) :
    FS × Bool × Option String :=
  match outcome with
  | .httpError msg =>
      (fs.makedirs (pathDirname local_filepath), false,
        some ("HTTP Error for " ++ url ++ ": " ++ msg))
  | .earlyTransportError msg =>
      (fs.makedirs (pathDirname local_filepath), false,
        some ("An unexpected error occurred for " ++ url ++ ": " ++ msg))
  | .emptyContent =>
      (fs.makedirs (pathDirname local_filepath), false,
        some ("File size is 0 bytes at " ++ url))
  | .midTransferError msg =>
      ((fs.makedirs (pathDirname local_filepath)).writeFile local_filepath false, false,
        some ("An unexpected error occurred for " ++ url ++ ": " ++ msg))
  | .success =>
      ((fs.makedirs (pathDirname local_filepath)).writeFile local_filepath true, true, none)

/-! ### download_tile (src/lib/dem_utils.py, lines 70-94) -/

/-- `DEFAULT_CACHE_DIR` from src/lib/dem_utils.py. -/
def DEFAULT_CACHE_DIR : String := "../data/extracted/dem"

/-- `download_tile(tile_key, cache_dir)` from src/lib/dem_utils.py.
Returns the updated filesystem, the result (`ok path`, or `error` for the
`RuntimeError` raised on download failure), and the number of network
fetches performed (0 on cache hit, 1 otherwise). -/
def download_tile (fs : FS) (outcome : FetchOutcome) (tile_key cache_dir : String) :
    FS × Except String String × Nat :=
  if (fs.makedirs cache_dir).fileExists (pathJoin cache_dir (tile_key ++ ".tif")) then
    (fs.makedirs cache_dir, .ok (pathJoin cache_dir (tile_key ++ ".tif")), 0)
  else if (download_file (fs.makedirs cache_dir) outcome (tile_url tile_key)
      (pathJoin cache_dir (tile_key ++ ".tif"))).2.1 then
    ((download_file (fs.makedirs cache_dir) outcome (tile_url tile_key)
        (pathJoin cache_dir (tile_key ++ ".tif"))).1,
      .ok (pathJoin cache_dir (tile_key ++ ".tif")), 1)
  else
    ((download_file (fs.makedirs cache_dir) outcome (tile_url tile_key)
        (pathJoin cache_dir (tile_key ++ ".tif"))).1,
      .error ("Failed to download " ++ tile_url tile_key ++ ": "
        ++ ((download_file (fs.makedirs cache_dir) outcome (tile_url tile_key)
          (pathJoin cache_dir (tile_key ++ ".tif"))).2.2.getD "None")), 1)

lemma FS.dirs_contains_makedirs_of_contains (fs : FS) (d e : String)
    (h : fs.dirs.contains d = true) : (fs.makedirs e).dirs.contains d = true := by
  unfold FS.makedirs
  rcases hc : fs.dirs.contains e with _ | _ <;> simp_all

lemma FS.makedirs_of_contains (fs : FS) (d : String)
    (h : fs.dirs.contains d = true) : fs.makedirs d = fs := by
  unfold FS.makedirs
  rw [h]
  simp

/-- C4 counterexample: a transport error in mid-transfer reports failure but
leaves the partially written file at the target path, so the filesystem state
is not "complete file or no file". -/
theorem download_file_partial_file_left :
    (download_file ⟨[], []⟩ (.midTransferError "connection reset")
        "http://example/t.tif" "d/f.tif").2.1 = false
    ∧ (download_file ⟨[], []⟩ (.midTransferError "connection reset")
        "http://example/t.tif" "d/f.tif").1.fileExists "d/f.tif" = true
    ∧ ("d/f.tif", false) ∈ (download_file ⟨[], []⟩ (.midTransferError "connection reset")
        "http://example/t.tif" "d/f.tif").1.files := by
  refine ⟨rfl, rfl, ?_⟩
  simp [download_file, FS.writeFile, FS.makedirs]

/-- C4 (amended): `download_file` reports failure without raising for HTTP
error status, zero-length content and transport errors; for an HTTP-error,
pre-transfer transport error or zero-length response no file is written at
the target path, and on success the complete file is written — but a
transport error in mid-transfer leaves the partially written file at the
target path. -/
theorem download_file_failure_modes (fs : FS) (url p msg : String)
    (h : fs.fileExists p = false) :
    ((download_file fs (.httpError msg) url p).2.1 = false
      ∧ (download_file fs (.httpError msg) url p).1.fileExists p = false)
    ∧ ((download_file fs (.earlyTransportError msg) url p).2.1 = false
      ∧ (download_file fs (.earlyTransportError msg) url p).1.fileExists p = false)
    ∧ ((download_file fs .emptyContent url p).2.1 = false
      ∧ (download_file fs .emptyContent url p).1.fileExists p = false)
    ∧ ((download_file fs .success url p).2.1 = true
      ∧ (p, true) ∈ (download_file fs .success url p).1.files)
    ∧ ((download_file fs (.midTransferError msg) url p).2.1 = false
      ∧ (p, false) ∈ (download_file fs (.midTransferError msg) url p).1.files) := by
  refine ⟨⟨rfl, ?_⟩, ⟨rfl, ?_⟩, ⟨rfl, ?_⟩, ⟨rfl, ?_⟩, ⟨rfl, ?_⟩⟩
  · exact h
  · exact h
  · exact h
  · simp [download_file, FS.writeFile, FS.makedirs]
  · simp [download_file, FS.writeFile, FS.makedirs]

/-- Witness for C4: the amended theorem applied at the empty filesystem. -/
theorem download_file_failure_modes_witness :
    (FS.fileExists ⟨[], []⟩ "d/f.tif" = false)
    ∧ ((download_file ⟨[], []⟩ (.httpError "404") "http://u" "d/f.tif").2.1 = false
      ∧ (download_file ⟨[], []⟩ (.httpError "404") "http://u" "d/f.tif").1.fileExists
          "d/f.tif" = false) :=
  ⟨by decide, (download_file_failure_modes ⟨[], []⟩ "http://u" "d/f.tif" "404"
    (by decide)).1⟩

/-- C7: calling `download_tile` twice with the same key and cache directory
performs the network fetch at most once — if the first call returned a path,
the second call is a cache hit that returns the identical path, performs no
fetch, and leaves the filesystem unchanged. -/
theorem download_tile_fetch_at_most_once
    (fs : FS) (o1 o2 : FetchOutcome) (tile_key cache_dir p : String)
    (h : (download_tile fs o1 tile_key cache_dir).2.1 = Except.ok p) :
    (download_tile (download_tile fs o1 tile_key cache_dir).1 o2 tile_key cache_dir).2.1
        = Except.ok p
    ∧ (download_tile (download_tile fs o1 tile_key cache_dir).1 o2 tile_key cache_dir).2.2
        = 0
    ∧ (download_tile fs o1 tile_key cache_dir).2.2
        + (download_tile (download_tile fs o1 tile_key cache_dir).1 o2 tile_key cache_dir).2.2
        ≤ 1
    ∧ (download_tile (download_tile fs o1 tile_key cache_dir).1 o2 tile_key cache_dir).1
        = (download_tile fs o1 tile_key cache_dir).1 := by
  unfold download_tile at h ⊢
  rcases hc : (fs.makedirs cache_dir).fileExists (pathJoin cache_dir (tile_key ++ ".tif"))
    with _ | _
  · -- cache miss on the first call
    rw [hc] at h
    simp only [Bool.false_eq_true, if_false] at h ⊢
    cases o1 with
    | success =>
      simp only [download_file] at h ⊢
      simp only [if_true] at h ⊢
      obtain rfl : pathJoin cache_dir (tile_key ++ ".tif") = p := Except.ok.inj h
      have hdir : (((fs.makedirs cache_dir).makedirs
          (pathDirname (pathJoin cache_dir (tile_key ++ ".tif")))).writeFile
          (pathJoin cache_dir (tile_key ++ ".tif")) true).dirs.contains cache_dir = true :=
        FS.dirs_contains_makedirs_of_contains _ _ _
          (FS.dirs_contains_makedirs_self fs cache_dir)
      rw [FS.makedirs_of_contains _ _ hdir, FS.fileExists_writeFile_self]
      simp
    | httpError msg => simp [download_file] at h
    | earlyTransportError msg => simp [download_file] at h
    | emptyContent => simp [download_file] at h
    | midTransferError msg => simp [download_file] at h
  · -- cache hit on the first call
    rw [hc] at h
    simp only [if_true] at h ⊢
    obtain rfl : pathJoin cache_dir (tile_key ++ ".tif") = p := Except.ok.inj h
    rw [FS.makedirs_makedirs_self, hc]
    simp

/-- Witness for C7: the theorem applied with a successful first fetch into an
empty cache. -/
theorem download_tile_fetch_at_most_once_witness :
    ((download_tile ⟨[], []⟩ .success "n42w072" "cache").2.1
        = Except.ok "cache/n42w072.tif")
    ∧ (download_tile (download_tile ⟨[], []⟩ .success "n42w072" "cache").1 .success
        "n42w072" "cache").2.1 = Except.ok "cache/n42w072.tif"
    ∧ (download_tile (download_tile ⟨[], []⟩ .success "n42w072" "cache").1 .success
        "n42w072" "cache").2.2 = 0 :=
  ⟨rfl,
    (download_tile_fetch_at_most_once ⟨[], []⟩ .success .success "n42w072" "cache"
      "cache/n42w072.tif" rfl).1,
    (download_tile_fetch_at_most_once ⟨[], []⟩ .success .success "n42w072" "cache"
      "cache/n42w072.tif" rfl).2.1⟩

/-! ### merge_and_clip (src/lib/dem_utils.py, lines 101-138)

`gdalbuildvrt` and `gdalwarp` are external processes; whether each exits
with status 0 is an oracle parameter (`buildOk`, `warpOk`).  `check=True`
turns a non-zero exit into a raised `CalledProcessError`, modelled as
`Except.error`, which aborts the remaining statements of the function.
Python's float formatting in the output name is modelled by `toString ℚ`. -/

/-- `DEFAULT_OUT_DIR` from src/lib/dem_utils.py. -/
def DEFAULT_OUT_DIR : String := "../data/out"

/-- Result of one `merge_and_clip` call: final filesystem, returned path or
raised error, and which of the two external tools were invoked. -/
structure MergeResult where
  fs : FS
  result : Except String String
  buildAttempted : Bool
  warpAttempted : Bool

/-- `merge_and_clip(tile_paths, bbox, out_dir)` from src/lib/dem_utils.py:
`makedirs(out_dir)`, run `gdalbuildvrt` (writing the temporary VRT), run
`gdalwarp` (writing the clipped output), then remove the VRT if it exists.
A failing subprocess raises (`check=True`) and the following statements,
including the VRT cleanup, are not executed. -/
def merge_and_clip (fs : FS) (buildOk warpOk : Bool) (tile_paths : List String)
    (bbox : BoundingBox) (out_dir : String) : MergeResult :=
  let fs1 := fs.makedirs out_dir
  let vrt_path := pathJoin out_dir "_tmp_mosaic.vrt"
  let out_path := pathJoin out_dir ("DEM_" ++ toString bbox.xmin ++ "_"
    ++ toString bbox.ymin ++ "_" ++ toString bbox.xmax ++ "_"
    ++ toString bbox.ymax ++ ".tif")
  if buildOk = false then
    { fs := fs1, result := .error "gdalbuildvrt returned non-zero exit status",
      buildAttempted := true, warpAttempted := false }
  else if warpOk = false then
    { fs := fs1.writeFile vrt_path true,
      result := .error "gdalwarp returned non-zero exit status",
      buildAttempted := true, warpAttempted := true }
  else
    let fs2 := (fs1.writeFile vrt_path true).writeFile out_path true
    { fs := if fs2.fileExists vrt_path then fs2.removeFile vrt_path else fs2,
      result := .ok out_path, buildAttempted := true, warpAttempted := true }

/-- C1 counterexample: when the clip step (`gdalwarp`) fails, the exception
propagates before the cleanup statement, and the temporary VRT is still on
disk when `merge_and_clip` returns. -/
theorem merge_and_clip_vrt_left_on_clip_failure :
    (merge_and_clip ⟨[("t.tif", true)], []⟩ true false ["t.tif"]
        ⟨-103, 42, -102, 43⟩ "out").result
      = Except.error "gdalwarp returned non-zero exit status"
    ∧ (merge_and_clip ⟨[("t.tif", true)], []⟩ true false ["t.tif"]
        ⟨-103, 42, -102, 43⟩ "out").fs.fileExists (pathJoin "out" "_tmp_mosaic.vrt")
      = true := by
  exact ⟨rfl, by decide⟩

/-- C1 (amended): the temporary VRT does not exist on disk when
`merge_and_clip` returns successfully; when the clip step fails the
exception propagates before the cleanup, so the VRT is left on disk. -/
theorem merge_and_clip_vrt_removed_on_success
    (fs : FS) (b w : Bool) (tile_paths : List String) (bbox : BoundingBox)
    (out_dir p : String)
    (h : (merge_and_clip fs b w tile_paths bbox out_dir).result = Except.ok p) :
    (merge_and_clip fs b w tile_paths bbox out_dir).fs.fileExists
      (pathJoin out_dir "_tmp_mosaic.vrt") = false := by
  simp only [merge_and_clip] at h ⊢
  cases b with
  | false => simp at h
  | true =>
    cases w with
    | false => simp at h
    | true =>
      simp only [Bool.true_eq_false, if_false] at h ⊢
      split
      · exact FS.fileExists_removeFile_self _ _
      · next hfalse => simpa using hfalse

/-- Witness for C1: the amended theorem applied to a successful run on an
empty filesystem. -/
theorem merge_and_clip_vrt_removed_on_success_witness :
    (merge_and_clip ⟨[], []⟩ true true ["t.tif"] ⟨-103, 42, -102, 43⟩ "out").result
      = Except.ok (pathJoin "out" "DEM_-103_42_-102_43.tif")
    ∧ (merge_and_clip ⟨[], []⟩ true true ["t.tif"] ⟨-103, 42, -102, 43⟩ "out").fs.fileExists
      (pathJoin "out" "_tmp_mosaic.vrt") = false :=
  ⟨rfl, merge_and_clip_vrt_removed_on_success _ _ _ _ _ _ _ rfl⟩

/-! ### fetch_and_clip_dem (src/lib/dem_utils.py, lines 145-172) -/

/-- The download loop of `fetch_and_clip_dem`: materialize each tile in
order, aborting at the first `RuntimeError` (modelled as `Except.error`).
The fetch outcome for each tile key is given by `oracle`. -/
def downloadTiles (oracle : String → FetchOutcome) (cache_dir : String) :
    FS → List String → FS × Except String (List String)
  | fs, [] => (fs, .ok [])
  | fs, k :: ks =>
    match download_tile fs (oracle k) k cache_dir with
    | (fs1, .error e, _) => (fs1, .error e)
    | (fs1, .ok p, _) =>
      match downloadTiles oracle cache_dir fs1 ks with
      | (fs2, .ok ps) => (fs2, .ok (p :: ps))
      | (fs2, .error e) => (fs2, .error e)

/-- Result of `fetch_and_clip_dem`: final filesystem, outcome
(`ok (some path)` = returned output path, `ok none` = returned `None`,
`error` = uncaught exception from the compositor), and whether the mosaic
build was attempted. -/
structure PipelineResult where
  fs : FS
  outcome : Except String (Option String)
  buildAttempted : Bool

/-- `fetch_and_clip_dem(bbox, cache_dir, out_dir)` from src/lib/dem_utils.py:
enumerate tiles; if the list is empty print a warning and return `None`
without touching the filesystem; otherwise download every tile (returning
`None` on a download `RuntimeError`) and hand the paths to `merge_and_clip`,
whose exceptions are not caught here. -/
def fetch_and_clip_dem (fs : FS) (oracle : String → FetchOutcome)
    (buildOk warpOk : Bool) (bbox : BoundingBox) (cache_dir out_dir : String) :
    PipelineResult :=
  if tiles_for_bbox bbox = [] then
    { fs := fs, outcome := .ok none, buildAttempted := false }
  else
    match downloadTiles oracle cache_dir fs (tiles_for_bbox bbox) with
    | (fs1, .error _) => { fs := fs1, outcome := .ok none, buildAttempted := false }
    | (fs1, .ok paths) =>
      { fs := (merge_and_clip fs1 buildOk warpOk paths bbox out_dir).fs,
        outcome :=
          match (merge_and_clip fs1 buildOk warpOk paths bbox out_dir).result with
          | .ok p => .ok (some p)
          | .error e => .error e,
        buildAttempted := (merge_and_clip fs1 buildOk warpOk paths bbox out_dir).buildAttempted }

/-- C5 counterexample: calling `merge_and_clip` on an empty list of tile
paths creates the output directory (a filesystem write) and attempts the
mosaic build, which fails with the subprocess error — there is no
`NoTilesAvailable` error. -/
theorem merge_and_clip_empty_input_attempts_composition :
    (merge_and_clip ⟨[], []⟩ false false [] ⟨-103, 42, -102, 43⟩ "out").buildAttempted
      = true
    ∧ (merge_and_clip ⟨[], []⟩ false false [] ⟨-103, 42, -102, 43⟩ "out").fs.dirs.contains
        "out" = true
    ∧ (merge_and_clip ⟨[], []⟩ false false [] ⟨-103, 42, -102, 43⟩ "out").result
      = Except.error "gdalbuildvrt returned non-zero exit status" :=
  ⟨rfl, by decide, rfl⟩

/-- C5 (amended): `merge_and_clip` itself has no empty-input guard — handed
an empty tile list it creates the output directory and attempts the mosaic
build; the empty-enumeration guard lives in `fetch_and_clip_dem`, which
returns `None` without attempting composition and without any filesystem
write when `tiles_for_bbox` is empty. -/
theorem empty_tiles_guard (fs fsm : FS) (oracle : String → FetchOutcome)
    (b w : Bool) (bbox bboxm : BoundingBox) (cache_dir out_dir : String)
    (h : tiles_for_bbox bbox = []) :
    ((fetch_and_clip_dem fs oracle b w bbox cache_dir out_dir).fs = fs
      ∧ (fetch_and_clip_dem fs oracle b w bbox cache_dir out_dir).outcome
          = Except.ok none
      ∧ (fetch_and_clip_dem fs oracle b w bbox cache_dir out_dir).buildAttempted = false)
    ∧ ((merge_and_clip fsm b w [] bboxm out_dir).buildAttempted = true
      ∧ (merge_and_clip fsm b w [] bboxm out_dir).fs.dirs.contains out_dir = true) := by
  constructor
  · rw [fetch_and_clip_dem, if_pos h]
    exact ⟨rfl, rfl, rfl⟩
  · constructor
    · simp only [merge_and_clip]
      cases b <;> cases w <;> simp
    · simp only [merge_and_clip]
      rcases b with _ | _
      · rw [if_pos rfl]
        exact FS.dirs_contains_makedirs_self fsm out_dir
      · rw [if_neg (by simp)]
        rcases w with _ | _
        · rw [if_pos rfl]
          exact FS.dirs_contains_makedirs_self fsm out_dir
        · rw [if_neg (by simp)]
          split
          · exact FS.dirs_contains_makedirs_self fsm out_dir
          · exact FS.dirs_contains_makedirs_self fsm out_dir

/-- Witness for C5: the amended theorem applied to an inverted box
(`xmin > xmax`), for which `tiles_for_bbox` is empty. -/
theorem empty_tiles_guard_witness :
    tiles_for_bbox ⟨1, 0, 0, 0⟩ = []
    ∧ ((fetch_and_clip_dem ⟨[], []⟩ (fun _ => .success) true true ⟨1, 0, 0, 0⟩
          "cache" "out").fs = ⟨[], []⟩
      ∧ (fetch_and_clip_dem ⟨[], []⟩ (fun _ => .success) true true ⟨1, 0, 0, 0⟩
          "cache" "out").outcome = Except.ok none
      ∧ (fetch_and_clip_dem ⟨[], []⟩ (fun _ => .success) true true ⟨1, 0, 0, 0⟩
          "cache" "out").buildAttempted = false) :=
  ⟨by decide,
    (empty_tiles_guard ⟨[], []⟩ ⟨[], []⟩ (fun _ => .success) true true ⟨1, 0, 0, 0⟩
      ⟨1, 0, 0, 0⟩ "cache" "out" (by decide)).1⟩

/-! ### extract_zip_and_rename (src/lib/download_utils.py, lines 49-106)

The archive content is an oracle: either the zip is corrupt
(`zipfile.BadZipFile` on open) or it holds a list of member names. -/

/-- Content of the archive passed to `extract_zip_and_rename`. -/
inductive ZipContent where
  | corrupt
  | members (names : List String)
deriving DecidableEq

/-- `extract_zip_and_rename(zip_path, extract_dir, file_extension)` from
src/lib/download_utils.py: find the first member ending in
`file_extension`, extract it flattened (base name only) into
`extract_dir`, move it onto the target name derived from the zip's base
name, and delete the zip.  The zip is also deleted on `BadZipFile`, but on
the "no member with the extension" branch the function returns *without*
deleting the zip. -/
def extract_zip_and_rename (fs : FS) (zip : ZipContent)
    (zip_path extract_dir file_extension : String) : FS × Bool × String :=
  let fs1 := fs.makedirs extract_dir
  let target_path := pathJoin extract_dir
    (pathStripExt (pathBasename zip_path) ++ file_extension)
  match zip with
  | .corrupt => (fs1.removeFile zip_path, false, "Bad zip file (deleted): " ++ zip_path)
  | .members ms =>
    match ms.find? (fun m => pyEndsWith m file_extension) with
    | none => (fs1, false, "No '" ++ file_extension ++ "' file found in " ++ zip_path)
    | some m =>
      let extracted_path := pathJoin extract_dir (pathBasename m)
      let fs2 := fs1.writeFile extracted_path true
      let fs3 := if extracted_path ≠ target_path then
          (fs2.removeFile extracted_path).writeFile target_path true
        else fs2
      (fs3.removeFile zip_path, true, target_path)

/-- C2 counterexample: an archive that contains no member with the target
extension is *not* deleted — `extract_zip_and_rename` reports failure but
the source archive is still on disk. -/
theorem extract_zip_no_member_archive_kept :
    (extract_zip_and_rename ⟨[("raw/a.zip", true)], []⟩ (.members ["readme.txt"])
        "raw/a.zip" "ext" ".gpkg").2.1 = false
    ∧ (extract_zip_and_rename ⟨[("raw/a.zip", true)], []⟩ (.members ["readme.txt"])
        "raw/a.zip" "ext" ".gpkg").1.fileExists "raw/a.zip" = true := by
  exact ⟨rfl, by decide⟩

/-- C2 (amended): the source archive is deleted before
`extract_zip_and_rename` returns whenever the call succeeds and whenever
the archive is corrupt; when no member with the target extension is found
the archive is left in place. -/
theorem extract_zip_archive_cleanup (fs : FS) (zip : ZipContent)
    (zip_path extract_dir file_extension : String)
    (h : zip = ZipContent.corrupt
      ∨ (extract_zip_and_rename fs zip zip_path extract_dir file_extension).2.1 = true) :
    (extract_zip_and_rename fs zip zip_path extract_dir file_extension).1.fileExists
      zip_path = false := by
  rcases h with h | h
  · subst h
    simp only [extract_zip_and_rename]
    exact FS.fileExists_removeFile_self _ _
  · cases zip with
    | corrupt =>
      simp only [extract_zip_and_rename]
      exact FS.fileExists_removeFile_self _ _
    | members ms =>
      simp only [extract_zip_and_rename] at h ⊢
      cases hf : ms.find? (fun m => pyEndsWith m file_extension) with
      | none =>
        rw [hf] at h
        simp at h
      | some m =>
        exact FS.fileExists_removeFile_self _ _

/-- Witness for C2: the amended theorem applied to a successful extraction
(nested member name, flattened). -/
theorem extract_zip_archive_cleanup_witness :
    ((extract_zip_and_rename ⟨[("raw/a.zip", true)], []⟩
        (.members ["sub/dir/file.gpkg"]) "raw/a.zip" "ext" ".gpkg").2.1 = true)
    ∧ (extract_zip_and_rename ⟨[("raw/a.zip", true)], []⟩
        (.members ["sub/dir/file.gpkg"]) "raw/a.zip" "ext" ".gpkg").1.fileExists
        "raw/a.zip" = false :=
  ⟨by decide,
    extract_zip_archive_cleanup ⟨[("raw/a.zip", true)], []⟩
      (.members ["sub/dir/file.gpkg"]) "raw/a.zip" "ext" ".gpkg" (Or.inr (by decide))⟩

/-! ### USGSTopoDownloader (src/lib/gpkg_utils.py)

The OGR layer iteration of `download_by_bbox` is modelled as a fold over
the list of records the spatial filter yields; each record exposes the
`CELL_NAME` and `STATE_ALPHA` fields (`none` models a missing field).  The
per-quad network interaction is an oracle `env` mapping
`(quad_name, state_abbr)` to the fetch outcome and the zip content. -/

/-- `BASE_URL` from src/lib/gpkg_utils.py. -/
def BASE_URL : String := "https://prd-tnm.s3.amazonaws.com/StagedProducts/TopoMapVector/"

/-- Python truthiness of the `STATE_ALPHA` field: `not state_alpha_field`
is true for a missing field (`None`) and for the empty string. -/
def pyFalsy : Option String → Bool
  | none => true
  | some s => s = ""

/-- `USGSTopoDownloader._get_quad_info(cell_name, state_alpha_field)` from
src/lib/gpkg_utils.py: `None` when the state field is falsy, otherwise
`(cell_name.strip().replace(' ', '_'), state_alpha_field.split(',')[0].strip())`.
No case normalization happens here. -/
def _get_quad_info (cell_name : String) (state_alpha_field : Option String) :
    Option (String × String) :=
  if pyFalsy state_alpha_field then none
  else some (pyReplaceSpaceUnderscore (pyStrip cell_name),
    pyStrip (pyFirstCommaToken (state_alpha_field.getD "")))

/-- `USGSTopoDownloader._process_quad(quad_name, state_abbr)` from
src/lib/gpkg_utils.py.  Returns the updated filesystem, the boolean result,
and the number of network fetches (0 on cache hit).  `state_abbr.upper()`
is applied only in the URL. -/
def _process_quad (fs : FS) (outcome : FetchOutcome) (zip : ZipContent)
    (download_format raw_dir extracted_dir quad_name state_abbr : String) :
    FS × Bool × Nat :=
  let zip_filename := "VECTOR_" ++ quad_name ++ "_" ++ state_abbr ++ "_7_5_Min_"
    ++ download_format ++ ".zip"
  let gpkg_filename := "VECTOR_" ++ quad_name ++ "_" ++ state_abbr ++ "_7_5_Min_"
    ++ download_format ++ ".gpkg"
  let zip_filepath := pathJoin raw_dir zip_filename
  let gpkg_filepath := pathJoin extracted_dir gpkg_filename
  let full_url := BASE_URL ++ pyUpper state_abbr ++ "/" ++ download_format ++ "/"
    ++ zip_filename
  if fs.fileExists gpkg_filepath then (fs, true, 0)
  else if (download_file fs outcome full_url zip_filepath).2.1 = false then
    (if (download_file fs outcome full_url zip_filepath).1.fileExists zip_filepath then
        (download_file fs outcome full_url zip_filepath).1.removeFile zip_filepath
      else (download_file fs outcome full_url zip_filepath).1, false, 1)
  else
    ((extract_zip_and_rename (download_file fs outcome full_url zip_filepath).1 zip
        zip_filepath extracted_dir ("." ++ pyLower download_format)).1,
      (extract_zip_and_rename (download_file fs outcome full_url zip_filepath).1 zip
        zip_filepath extracted_dir ("." ++ pyLower download_format)).2.1, 1)

/-- One record yielded by the spatially filtered `CellGrid_7_5Minute` layer. -/
structure GdbRecord where
  cell_name : String
  state_alpha : Option String

/-- Loop state of `download_by_bbox`: the mutable locals of the source
(`processed_quads`, `features_found`, `downloads_successful`) plus the
filesystem and ghost instrumentation (`processCalls` records the keys for
which `_process_quad` was invoked, `fetchCount` the accumulated network
fetches, `diagnostics` the emitted `[ERROR]` messages). -/
structure RunState where
  fs : FS
  processed_quads : List String
  features_found : Nat
  downloads_successful : Nat
  processCalls : List String
  fetchCount : Nat
  diagnostics : List String

/-- Body of the `for feature in layer` loop of
`USGSTopoDownloader.download_by_bbox` (src/lib/gpkg_utils.py, lines 153-171). -/
def download_step (env : String → String → FetchOutcome × ZipContent)
    (download_format raw_dir extracted_dir : String) (st : RunState) (r : GdbRecord) :
    RunState :=
  match _get_quad_info r.cell_name r.state_alpha with
  | none =>
    { st with
      features_found := st.features_found + 1,
      diagnostics := st.diagnostics
        ++ ["STATE_ALPHA field is empty for: " ++ r.cell_name ++ ". Skipping."] }
  | some (quad_name, state_abbr) =>
    if st.processed_quads.contains (quad_name ++ "_" ++ state_abbr) then
      { st with features_found := st.features_found + 1 }
    else
      { fs := (_process_quad st.fs (env quad_name state_abbr).1
          (env quad_name state_abbr).2 download_format raw_dir extracted_dir
          quad_name state_abbr).1,
        processed_quads := (quad_name ++ "_" ++ state_abbr) :: st.processed_quads,
        features_found := st.features_found + 1,
        downloads_successful := st.downloads_successful
          + (if (_process_quad st.fs (env quad_name state_abbr).1
              (env quad_name state_abbr).2 download_format raw_dir extracted_dir
              quad_name state_abbr).2.1 then 1 else 0),
        processCalls := st.processCalls ++ [quad_name ++ "_" ++ state_abbr],
        fetchCount := st.fetchCount + (_process_quad st.fs (env quad_name state_abbr).1
          (env quad_name state_abbr).2 download_format raw_dir extracted_dir
          quad_name state_abbr).2.2,
        diagnostics := st.diagnostics }

/-- Initial loop state. -/
def initRunState (fs : FS) : RunState := ⟨fs, [], 0, 0, [], 0, []⟩

/-- `USGSTopoDownloader.download_by_bbox` (src/lib/gpkg_utils.py, lines
148-184), restricted to the record loop: fold the loop body over the
filtered records.  The summary counters reported on success are
`features_found`, `processed_quads.length` (unique quads) and
`downloads_successful`. -/
def download_by_bbox (env : String → String → FetchOutcome × ZipContent)
    (download_format raw_dir extracted_dir : String) (fs : FS)
    (records : List GdbRecord) : RunState :=
  records.foldl (download_step env download_format raw_dir extracted_dir)
    (initRunState fs)

lemma download_step_key_invariant
    (env : String → String → FetchOutcome × ZipContent) (fmt rd ed : String)
    (st : RunState) (r : GdbRecord)
    (h1 : st.processCalls.Nodup)
    (h2 : ∀ k, k ∈ st.processCalls ↔ k ∈ st.processed_quads) :
    (download_step env fmt rd ed st r).processCalls.Nodup
    ∧ (∀ k, k ∈ (download_step env fmt rd ed st r).processCalls
        ↔ k ∈ (download_step env fmt rd ed st r).processed_quads) := by
  unfold download_step
  split
  · exact ⟨h1, h2⟩
  next qn sa heq =>
    split
    · exact ⟨h1, h2⟩
    next hc =>
      have hnotmem : (qn ++ "_" ++ sa) ∉ st.processed_quads := by
        intro hmem
        exact hc (List.elem_iff.mpr hmem)
      constructor
      · rw [List.nodup_append]
        refine ⟨h1, List.nodup_singleton _, ?_⟩
        intro k hk hk'
        rw [List.mem_singleton] at hk'
        subst hk'
        exact hnotmem ((h2 _).mp hk)
      · intro k
        rw [List.mem_append, List.mem_singleton, List.mem_cons, h2 k]
        tauto

lemma download_foldl_key_invariant
    (env : String → String → FetchOutcome × ZipContent) (fmt rd ed : String) :
    ∀ (records : List GdbRecord) (st : RunState),
      st.processCalls.Nodup → (∀ k, k ∈ st.processCalls ↔ k ∈ st.processed_quads) →
      (records.foldl (download_step env fmt rd ed) st).processCalls.Nodup
      ∧ (∀ k, k ∈ (records.foldl (download_step env fmt rd ed) st).processCalls
          ↔ k ∈ (records.foldl (download_step env fmt rd ed) st).processed_quads)
  | [], _, h1, h2 => ⟨h1, h2⟩
  | r :: rs, st, h1, h2 => by
    rw [List.foldl_cons]
    obtain ⟨g1, g2⟩ := download_step_key_invariant env fmt rd ed st r h1 h2
    exact download_foldl_key_invariant env fmt rd ed rs _ g1 g2

/-- C8: within a single `download_by_bbox` run, each distinct normalized
quadrangle key is handed to `_process_quad` at most once — the list of
keys for which `_process_quad` was invoked has no duplicates, however many
records normalize to the same key. -/
theorem download_by_bbox_each_key_processed_once
    (env : String → String → FetchOutcome × ZipContent) (fmt rd ed : String)
    (fs : FS) (records : List GdbRecord) :
    (download_by_bbox env fmt rd ed fs records).processCalls.Nodup :=
  (download_foldl_key_invariant env fmt rd ed records (initRunState fs)
    List.nodup_nil (fun k => by simp [initRunState])).1

lemma download_step_skips_falsy
    (env : String → String → FetchOutcome × ZipContent) (fmt rd ed : String)
    (st : RunState) (r : GdbRecord) (h : pyFalsy r.state_alpha = true) :
    download_step env fmt rd ed st r
      = { st with
          features_found := st.features_found + 1,
          diagnostics := st.diagnostics
            ++ ["STATE_ALPHA field is empty for: " ++ r.cell_name ++ ". Skipping."] } := by
  unfold download_step _get_quad_info
  rw [h]
  rfl

lemma download_step_congr
    (env : String → String → FetchOutcome × ZipContent) (fmt rd ed : String)
    (st1 st2 : RunState) (r : GdbRecord)
    (hfs : st1.fs = st2.fs) (hp : st1.processed_quads = st2.processed_quads)
    (hd : st1.downloads_successful = st2.downloads_successful)
    (hc : st1.processCalls = st2.processCalls) (hf : st1.fetchCount = st2.fetchCount) :
    (download_step env fmt rd ed st1 r).fs = (download_step env fmt rd ed st2 r).fs
    ∧ (download_step env fmt rd ed st1 r).processed_quads
        = (download_step env fmt rd ed st2 r).processed_quads
    ∧ (download_step env fmt rd ed st1 r).downloads_successful
        = (download_step env fmt rd ed st2 r).downloads_successful
    ∧ (download_step env fmt rd ed st1 r).processCalls
        = (download_step env fmt rd ed st2 r).processCalls
    ∧ (download_step env fmt rd ed st1 r).fetchCount
        = (download_step env fmt rd ed st2 r).fetchCount := by
  unfold download_step
  cases _get_quad_info r.cell_name r.state_alpha with
  | none => exact ⟨hfs, hp, hd, hc, hf⟩
  | some qi =>
    obtain ⟨qn, sa⟩ := qi
    rw [hfs, hp, hd, hc, hf]
    by_cases hmem : qn ++ "_" ++ sa ∈ st2.processed_quads <;> simp [hmem]

lemma download_foldl_congr
    (env : String → String → FetchOutcome × ZipContent) (fmt rd ed : String) :
    ∀ (rs : List GdbRecord) (st1 st2 : RunState),
      st1.fs = st2.fs → st1.processed_quads = st2.processed_quads →
      st1.downloads_successful = st2.downloads_successful →
      st1.processCalls = st2.processCalls → st1.fetchCount = st2.fetchCount →
      (rs.foldl (download_step env fmt rd ed) st1).fs
          = (rs.foldl (download_step env fmt rd ed) st2).fs
      ∧ (rs.foldl (download_step env fmt rd ed) st1).processed_quads
          = (rs.foldl (download_step env fmt rd ed) st2).processed_quads
      ∧ (rs.foldl (download_step env fmt rd ed) st1).downloads_successful
          = (rs.foldl (download_step env fmt rd ed) st2).downloads_successful
      ∧ (rs.foldl (download_step env fmt rd ed) st1).processCalls
          = (rs.foldl (download_step env fmt rd ed) st2).processCalls
      ∧ (rs.foldl (download_step env fmt rd ed) st1).fetchCount
          = (rs.foldl (download_step env fmt rd ed) st2).fetchCount
  | [], _, _, hfs, hp, hd, hc, hf => ⟨hfs, hp, hd, hc, hf⟩
  | r :: rs, st1, st2, hfs, hp, hd, hc, hf => by
    rw [List.foldl_cons, List.foldl_cons]
    obtain ⟨g1, g2, g3, g4, g5⟩ :=
      download_step_congr env fmt rd ed st1 st2 r hfs hp hd hc hf
    exact download_foldl_congr env fmt rd ed rs _ _ g1 g2 g3 g4 g5

lemma download_step_features
    (env : String → String → FetchOutcome × ZipContent) (fmt rd ed : String)
    (st : RunState) (r : GdbRecord) :
    (download_step env fmt rd ed st r).features_found = st.features_found + 1 := by
  unfold download_step
  split
  · rfl
  next =>
    split
    · rfl
    · rfl

lemma download_foldl_features
    (env : String → String → FetchOutcome × ZipContent) (fmt rd ed : String) :
    ∀ (rs : List GdbRecord) (st : RunState),
      (rs.foldl (download_step env fmt rd ed) st).features_found
        = st.features_found + rs.length
  | [], _ => rfl
  | r :: rs, st => by
    rw [List.foldl_cons, download_foldl_features env fmt rd ed rs,
      download_step_features, List.length_cons]
    omega

lemma download_step_diagnostics_mono
    (env : String → String → FetchOutcome × ZipContent) (fmt rd ed : String)
    (st : RunState) (r : GdbRecord) (x : String) (hx : x ∈ st.diagnostics) :
    x ∈ (download_step env fmt rd ed st r).diagnostics := by
  unfold download_step
  split
  · exact List.mem_append_left _ hx
  next =>
    split
    · exact hx
    · exact hx

lemma download_foldl_diagnostics_mono
    (env : String → String → FetchOutcome × ZipContent) (fmt rd ed : String) :
    ∀ (rs : List GdbRecord) (st : RunState) (x : String), x ∈ st.diagnostics →
      x ∈ (rs.foldl (download_step env fmt rd ed) st).diagnostics
  | [], _, _, hx => hx
  | r :: rs, st, x, hx => by
    rw [List.foldl_cons]
    exact download_foldl_diagnostics_mono env fmt rd ed rs _ x
      (download_step_diagnostics_mono env fmt rd ed st r x hx)

/-- C9: a record with a missing or empty state field is skipped with a
reported diagnostic: it is not added to the dedup set, triggers no
`_process_quad` call, no download count, no fetch and no filesystem
change, while `features_found` still counts it, and the remaining records
are processed exactly as if the record were absent (the run is not
halted). -/
theorem empty_state_record_skipped
    (env : String → String → FetchOutcome × ZipContent) (fmt rd ed : String)
    (fs : FS) (pre post : List GdbRecord) (r : GdbRecord)
    (h : pyFalsy r.state_alpha = true) :
    (download_by_bbox env fmt rd ed fs (pre ++ r :: post)).processed_quads
        = (download_by_bbox env fmt rd ed fs (pre ++ post)).processed_quads
    ∧ (download_by_bbox env fmt rd ed fs (pre ++ r :: post)).downloads_successful
        = (download_by_bbox env fmt rd ed fs (pre ++ post)).downloads_successful
    ∧ (download_by_bbox env fmt rd ed fs (pre ++ r :: post)).processCalls
        = (download_by_bbox env fmt rd ed fs (pre ++ post)).processCalls
    ∧ (download_by_bbox env fmt rd ed fs (pre ++ r :: post)).fs
        = (download_by_bbox env fmt rd ed fs (pre ++ post)).fs
    ∧ (download_by_bbox env fmt rd ed fs (pre ++ r :: post)).fetchCount
        = (download_by_bbox env fmt rd ed fs (pre ++ post)).fetchCount
    ∧ (download_by_bbox env fmt rd ed fs (pre ++ r :: post)).features_found
        = (download_by_bbox env fmt rd ed fs (pre ++ post)).features_found + 1
    ∧ ("STATE_ALPHA field is empty for: " ++ r.cell_name ++ ". Skipping.")
        ∈ (download_by_bbox env fmt rd ed fs (pre ++ r :: post)).diagnostics := by
  unfold download_by_bbox
  rw [List.foldl_append, List.foldl_append, List.foldl_cons,
    download_step_skips_falsy env fmt rd ed _ r h]
  obtain ⟨g1, g2, g3, g4, g5⟩ := download_foldl_congr env fmt rd ed post
    { pre.foldl (download_step env fmt rd ed) (initRunState fs) with
      features_found := (pre.foldl (download_step env fmt rd ed)
        (initRunState fs)).features_found + 1,
      diagnostics := (pre.foldl (download_step env fmt rd ed)
          (initRunState fs)).diagnostics
        ++ ["STATE_ALPHA field is empty for: " ++ r.cell_name ++ ". Skipping."] }
    (pre.foldl (download_step env fmt rd ed) (initRunState fs))
    rfl rfl rfl rfl rfl
  refine ⟨g2, g3, g4, g1, g5, ?_, ?_⟩
  · simp only [download_foldl_features]
    omega
  · apply download_foldl_diagnostics_mono
    exact List.mem_append_right _ (List.mem_singleton.mpr rfl)

/-- Witness for C9: the theorem applied to a run with one empty-state
record followed by a valid record. -/
theorem empty_state_record_skipped_witness :
    pyFalsy (some "") = true
    ∧ (download_by_bbox (fun _ _ => (.success, .members ["x.gpkg"])) "GPKG" "raw" "ext"
        ⟨[], []⟩ ([] ++ ⟨"Foo", some ""⟩ :: [⟨"Bar", some "NE"⟩])).processed_quads
      = (download_by_bbox (fun _ _ => (.success, .members ["x.gpkg"])) "GPKG" "raw" "ext"
        ⟨[], []⟩ ([] ++ [⟨"Bar", some "NE"⟩])).processed_quads
    ∧ ("STATE_ALPHA field is empty for: " ++ "Foo" ++ ". Skipping.")
        ∈ (download_by_bbox (fun _ _ => (.success, .members ["x.gpkg"])) "GPKG" "raw" "ext"
        ⟨[], []⟩ ([] ++ ⟨"Foo", some ""⟩ :: [⟨"Bar", some "NE"⟩])).diagnostics :=
  ⟨by decide,
    (empty_state_record_skipped (fun _ _ => (.success, .members ["x.gpkg"])) "GPKG"
      "raw" "ext" ⟨[], []⟩ [] [⟨"Bar", some "NE"⟩] ⟨"Foo", some ""⟩ (by decide)).1,
    (empty_state_record_skipped (fun _ _ => (.success, .members ["x.gpkg"])) "GPKG"
      "raw" "ext" ⟨[], []⟩ [] [⟨"Bar", some "NE"⟩] ⟨"Foo", some ""⟩
      (by decide)).2.2.2.2.2.2⟩

lemma download_step_counter_bounds
    (env : String → String → FetchOutcome × ZipContent) (fmt rd ed : String)
    (st : RunState) (r : GdbRecord)
    (h1 : st.downloads_successful ≤ st.processed_quads.length)
    (h2 : st.processed_quads.length ≤ st.features_found) :
    (download_step env fmt rd ed st r).downloads_successful
        ≤ (download_step env fmt rd ed st r).processed_quads.length
    ∧ (download_step env fmt rd ed st r).processed_quads.length
        ≤ (download_step env fmt rd ed st r).features_found := by
  unfold download_step
  split
  · refine ⟨h1, ?_⟩
    dsimp only
    omega
  next =>
    split
    · refine ⟨h1, ?_⟩
      dsimp only
      omega
    · constructor
      · dsimp only
        simp only [List.length_cons]
        split <;> omega
      · dsimp only
        simp only [List.length_cons]
        omega

lemma download_foldl_counter_bounds
    (env : String → String → FetchOutcome × ZipContent) (fmt rd ed : String) :
    ∀ (rs : List GdbRecord) (st : RunState),
      st.downloads_successful ≤ st.processed_quads.length →
      st.processed_quads.length ≤ st.features_found →
      (rs.foldl (download_step env fmt rd ed) st).downloads_successful
          ≤ (rs.foldl (download_step env fmt rd ed) st).processed_quads.length
      ∧ (rs.foldl (download_step env fmt rd ed) st).processed_quads.length
          ≤ (rs.foldl (download_step env fmt rd ed) st).features_found
  | [], _, h1, h2 => ⟨h1, h2⟩
  | r :: rs, st, h1, h2 => by
    rw [List.foldl_cons]
    obtain ⟨g1, g2⟩ := download_step_counter_bounds env fmt rd ed st r h1 h2
    exact download_foldl_counter_bounds env fmt rd ed rs _ g1 g2

lemma _process_quad_cache_hit (fs : FS) (o : FetchOutcome) (z : ZipContent)
    (fmt rd ed qn sa : String)
    (h : fs.fileExists (pathJoin ed ("VECTOR_" ++ qn ++ "_" ++ sa ++ "_7_5_Min_"
      ++ fmt ++ ".gpkg")) = true) :
    _process_quad fs o z fmt rd ed qn sa = (fs, true, 0) := by
  simp only [_process_quad]
  rw [h]
  simp

/-- C10: in every `download_by_bbox` run the reported counters satisfy
`downloads_successful ≤ unique_quads_identified ≤ features_found`
(`unique_quads_identified` being the size of the dedup set); moreover, a
quadrangle whose extracted file already exists in the cache is counted in
`downloads_successful` without any network fetch. -/
theorem download_by_bbox_counters
    (env : String → String → FetchOutcome × ZipContent) (fmt rd ed : String)
    (fs : FS) (records pre : List GdbRecord) (r : GdbRecord) (qn sa : String)
    (hinfo : _get_quad_info r.cell_name r.state_alpha = some (qn, sa))
    (hfresh : (download_by_bbox env fmt rd ed fs pre).processed_quads.contains
        (qn ++ "_" ++ sa) = false)
    (hcache : (download_by_bbox env fmt rd ed fs pre).fs.fileExists
        (pathJoin ed ("VECTOR_" ++ qn ++ "_" ++ sa ++ "_7_5_Min_" ++ fmt ++ ".gpkg"))
        = true) :
    ((download_by_bbox env fmt rd ed fs records).downloads_successful
        ≤ (download_by_bbox env fmt rd ed fs records).processed_quads.length
      ∧ (download_by_bbox env fmt rd ed fs records).processed_quads.length
        ≤ (download_by_bbox env fmt rd ed fs records).features_found)
    ∧ ((download_by_bbox env fmt rd ed fs (pre ++ [r])).downloads_successful
        = (download_by_bbox env fmt rd ed fs pre).downloads_successful + 1
      ∧ (download_by_bbox env fmt rd ed fs (pre ++ [r])).fetchCount
        = (download_by_bbox env fmt rd ed fs pre).fetchCount) := by
  constructor
  · exact download_foldl_counter_bounds env fmt rd ed records (initRunState fs)
      (by simp [initRunState]) (by simp [initRunState])
  · unfold download_by_bbox at hfresh hcache ⊢
    rw [List.foldl_append, List.foldl_cons, List.foldl_nil]
    simp only [download_step, hinfo]
    rw [hfresh]
    simp only [Bool.false_eq_true, if_false]
    rw [_process_quad_cache_hit _ _ _ fmt rd ed qn sa hcache]
    simp

/-- Witness for C10: the theorem applied to a run whose single record's
extracted file is already cached. -/
theorem download_by_bbox_counters_witness :
    _get_quad_info "Foo" (some "NE") = some ("Foo", "NE")
    ∧ (download_by_bbox (fun _ _ => (.success, .members ["x.gpkg"])) "GPKG" "raw" "ext"
        ⟨[("ext/VECTOR_Foo_NE_7_5_Min_GPKG.gpkg", true)], []⟩
        ([] ++ [⟨"Foo", some "NE"⟩])).downloads_successful
      = (download_by_bbox (fun _ _ => (.success, .members ["x.gpkg"])) "GPKG" "raw" "ext"
        ⟨[("ext/VECTOR_Foo_NE_7_5_Min_GPKG.gpkg", true)], []⟩ []).downloads_successful + 1
    ∧ (download_by_bbox (fun _ _ => (.success, .members ["x.gpkg"])) "GPKG" "raw" "ext"
        ⟨[("ext/VECTOR_Foo_NE_7_5_Min_GPKG.gpkg", true)], []⟩
        ([] ++ [⟨"Foo", some "NE"⟩])).fetchCount
      = (download_by_bbox (fun _ _ => (.success, .members ["x.gpkg"])) "GPKG" "raw" "ext"
        ⟨[("ext/VECTOR_Foo_NE_7_5_Min_GPKG.gpkg", true)], []⟩ []).fetchCount :=
  ⟨by decide,
    (download_by_bbox_counters (fun _ _ => (.success, .members ["x.gpkg"])) "GPKG"
      "raw" "ext" ⟨[("ext/VECTOR_Foo_NE_7_5_Min_GPKG.gpkg", true)], []⟩
      [⟨"Foo", some "NE"⟩] [] ⟨"Foo", some "NE"⟩ "Foo" "NE"
      (by decide) (by decide) (by decide)).2.1,
    (download_by_bbox_counters (fun _ _ => (.success, .members ["x.gpkg"])) "GPKG"
      "raw" "ext" ⟨[("ext/VECTOR_Foo_NE_7_5_Min_GPKG.gpkg", true)], []⟩
      [⟨"Foo", some "NE"⟩] [] ⟨"Foo", some "NE"⟩ "Foo" "NE"
      (by decide) (by decide) (by decide)).2.2⟩

/-- C3 counterexample: `_get_quad_info` does not upper-case the state
abbreviation, so records whose state fields differ only in letter case
("NE,SD" versus "ne") yield distinct keys and are *not* deduplicated:
the run processes two entries, not one. -/
theorem quad_key_not_case_normalized :
    _get_quad_info "Foo" (some "NE,SD") = some ("Foo", "NE")
    ∧ _get_quad_info "Foo" (some "ne") = some ("Foo", "ne")
    ∧ (download_by_bbox (fun _ _ => (.success, .members ["x.gpkg"])) "GPKG" "raw" "ext"
        ⟨[], []⟩ [⟨"Foo", some "NE,SD"⟩, ⟨"Foo", some "ne"⟩]).processed_quads.length
      = 2 :=
  ⟨by decide, by decide, by decide⟩

/-- C3 (amended): the normalized key is `(quad_name with spaces replaced by
underscore, first comma-token of the state field, whitespace-stripped but
kept in its original case — upper-casing is applied only in the URL)`; two
records are deduplicated to one entry exactly when these case-sensitive
keys coincide, so records differing only in letter case are processed as
two distinct entries. -/
theorem quad_key_normalization
    (env : String → String → FetchOutcome × ZipContent) (fmt rd ed : String)
    (fs : FS) (r1 r2 : GdbRecord) (qn1 sa1 qn2 sa2 : String)
    (h1 : _get_quad_info r1.cell_name r1.state_alpha = some (qn1, sa1))
    (h2 : _get_quad_info r2.cell_name r2.state_alpha = some (qn2, sa2)) :
    _get_quad_info "Foo Bar" (some "NE,SD") = some ("Foo_Bar", "NE")
    ∧ (download_by_bbox env fmt rd ed fs [r1, r2]).processed_quads.length
      = if qn1 ++ "_" ++ sa1 = qn2 ++ "_" ++ sa2 then 1 else 2 := by
  refine ⟨by decide, ?_⟩
  unfold download_by_bbox
  rw [List.foldl_cons, List.foldl_cons, List.foldl_nil]
  simp only [download_step, h1, h2, initRunState, List.contains_nil,
    Bool.false_eq_true, if_false]
  by_cases hk : qn1 ++ "_" ++ sa1 = qn2 ++ "_" ++ sa2
  · rw [if_pos hk]
    simp [← hk]
  · rw [if_neg hk]
    have hne : ¬ (qn2 ++ "_" ++ sa2) = (qn1 ++ "_" ++ sa1) := fun he => hk he.symm
    simp [hne]

/-- Witness for C3: the amended theorem applied to the case-differing pair,
which yields two entries. -/
theorem quad_key_normalization_witness :
    _get_quad_info "Foo" (some "NE,SD") = some ("Foo", "NE")
    ∧ _get_quad_info "Foo" (some "ne") = some ("Foo", "ne")
    ∧ (download_by_bbox (fun _ _ => (.success, .members ["x.gpkg"])) "GPKG" "raw" "ext"
        ⟨[], []⟩ [⟨"Foo", some "NE,SD"⟩, ⟨"Foo", some "ne"⟩]).processed_quads.length
      = if ("Foo" ++ "_" ++ "NE") = ("Foo" ++ "_" ++ "ne") then 1 else 2 :=
  ⟨by decide, by decide,
    (quad_key_normalization (fun _ _ => (.success, .members ["x.gpkg"])) "GPKG" "raw"
      "ext" ⟨[], []⟩ ⟨"Foo", some "NE,SD"⟩ ⟨"Foo", some "ne"⟩ "Foo" "NE" "Foo" "ne"
      (by decide) (by decide)).2⟩

end MapTools
